import Mathlib

/-!
Verification development for the Avalanche Streamlit dashboard
(`streamlit_app.py`). The module-level script is embedded shallowly:
each dashboard block becomes a total Lean function over an explicit
table value, the chat-turn handler becomes a function on the stored
message list, and the Cortex SQL bridge becomes a function on strings.
-/

namespace StreamlitApp

/-- Escaping step of `cortex_complete` on character lists:
`prompt.replace("'", "''")`. For the single-character pattern `'`,
Python's left-to-right non-overlapping replace doubles each quote
character and copies every other character. -/
def escQuotes : List Char → List Char
  | [] => []
  | c :: cs => if c = '\'' then '\'' :: '\'' :: escQuotes cs else c :: escQuotes cs

/-- String form of the escape: the `safe` local of `cortex_complete`. -/
def safe (prompt : String) : String := String.mk (escQuotes prompt.toList)

/-- Spec-side description of the escape, for refinement comparison: the
output is exactly the input with each quote replaced by two quotes and
every other character kept. -/
def escQuotesSpec (cs : List Char) : List Char :=
  cs.flatMap (fun c => if c = '\'' then ['\'', '\''] else [c])

/-- Fixed text before the interpolated model name in the Cortex SQL. -/
def sqlHead : String := "SELECT SNOWFLAKE.CORTEX.COMPLETE('"

/-- Fixed text between the model name and the escaped prompt. -/
def sqlMid : String := "', '"

/-- Fixed text after the escaped prompt in the Cortex SQL. -/
def sqlTail : String := "') AS RESP"

/-- SQL text built by `cortex_complete`:
`f"SELECT SNOWFLAKE.CORTEX.COMPLETE('{model}', '{safe}') AS RESP"`.
Only the prompt passes through `safe`; the model name is interpolated
as-is. -/
def cortex_complete_sql (model prompt : String) : String :=
  sqlHead ++ model ++ sqlMid ++ safe prompt ++ sqlTail

/-- One (role, text) entry of `st.session_state.chat_msgs`. -/
abbrev ChatMsg := String × String

/-- Outcome of the `cortex_complete` call seen at the chat-turn boundary:
the reply text, or the message of the raised exception. -/
abbrev CompletionResult := Except String String

/-- Chat-turn handler (module level, `if user_q:` block): append the user
turn, obtain the reply — on an exception the apology string embedding the
error message — and append exactly one assistant turn. The function is
total: the exception is caught here and never propagates. -/
def chatTurn (msgs : List ChatMsg) (userQ : String) (res : CompletionResult) :
    List ChatMsg :=
  let withUser := msgs ++ [("user", userQ)]
  let reply :=
    match res with
    | .ok r => r
    | .error e => "Sorry, Cortex call failed: " ++ e
  withUser ++ [("assistant", reply)]

/-- Histogram bin count (`bins = int(max(5, min(40, math.sqrt(len(s)))))`).
The clamp bounds 5 and 40 are integers, so truncating after the clamp
equals clamping the truncated square root; the integer value computed is
therefore `max 5 (min 40 (Nat.sqrt n))`. -/
def histBins (n : Nat) : Nat := max 5 (min 40 (Nat.sqrt n))

/-- Nearest integer to the real square root of `n`: it is `Nat.sqrt n + 1`
exactly when the fractional part of the root is at least one half, i.e.
when `n > sqrt n * sqrt n + sqrt n`; the root of an integer is never
exactly halfway. -/
def roundSqrt (n : Nat) : Nat :=
  if Nat.sqrt n * Nat.sqrt n + Nat.sqrt n < n then Nat.sqrt n + 1 else Nat.sqrt n

/-- Spec-side bin count, for comparison: round(sqrt(n)) clamped to
[5, 40]. -/
def histBinsSpec (n : Nat) : Nat := max 5 (min 40 (roundSqrt n))

/-- One cell of the loaded dataframe: missing (NaN/None), a numeric value
(modelled as a rational), or a text value. -/
inductive Cell
  | null
  | num (q : ℚ)
  | str (s : String)
deriving DecidableEq

/-- Value of an unsigned run of decimal digits, most significant first;
`none` if any character is not a digit. The empty run yields 0 and is
rejected by callers where Python rejects it. -/
def digitsVal (cs : List Char) : Option Nat :=
  cs.foldl
    (fun acc c =>
      if c.isDigit then acc.map (fun n => 10 * n + (c.toNat - 48)) else none)
    (some 0)

/-- Parse of an unsigned decimal literal — digits with an optional
fractional part — the fragment of numeric-string syntax the coercion
accepts. A bare dot with no digit on either side is rejected. -/
def parseUnsigned (cs : List Char) : Option ℚ :=
  match cs.splitOn '.' with
  | [intp] => if intp = [] then none else (digitsVal intp).map (fun n => (n : ℚ))
  | [intp, frac] =>
      if intp = [] ∧ frac = [] then none
      else
        (digitsVal intp).bind fun i =>
          (digitsVal frac).map fun f =>
            (i : ℚ) + (f : ℚ) / (10 : ℚ) ^ frac.length
  | _ => none

/-- Parse of a signed decimal literal. -/
def parseNum (s : String) : Option ℚ :=
  match s.toList with
  | '-' :: rest => (parseUnsigned rest).map Neg.neg
  | '+' :: rest => parseUnsigned rest
  | cs => parseUnsigned cs

/-- Numeric coercion `pd.to_numeric(x, errors="coerce")` of one cell:
numbers pass through, numeric text parses, everything else becomes
missing. -/
def toNumeric : Cell → Option ℚ
  | .null => none
  | .num q => some q
  | .str s => parseNum s

/-- One review row, restricted to the two columns the dashboard logic
touches: the categorical PRODUCT value (missing or text) and the raw
SENTIMENT_SCORE cell. -/
structure Row where
  product : Option String
  sentiment : Cell
deriving DecidableEq

/-- The loaded table: its column-name list plus the rows. The PRODUCT and
SENTIMENT_SCORE fields of a row are meaningful only when the matching
column name is present. -/
structure Table where
  cols : List String
  rows : List Row
deriving DecidableEq

/-- Output of a dashboard block: a rendered chart with its data, or an
informational notice with its message text. -/
inductive BlockOut (α : Type)
  | chart (data : α)
  | info (msg : String)
deriving DecidableEq

/-- Test of `df["PRODUCT"] == p` for one row: case-sensitive exact string
equality; a missing product never matches. -/
def matchesProduct (p : String) (r : Row) : Bool := r.product == some p

/-- Rows of one PRODUCT group (pandas groupby drops missing keys). -/
def groupRows (rows : List Row) (p : String) : List Row :=
  rows.filter (matchesProduct p)

/-- Valid (numeric after coercion) sentiment values of one group. -/
def groupVals (rows : List Row) (p : String) : List ℚ :=
  (groupRows rows p).filterMap fun r => toNumeric r.sentiment

/-- Mean sentiment of one group: sum of the valid values divided by their
number; `none` (NaN) when the group has no valid value. -/
def groupMean (rows : List Row) (p : String) : Option ℚ :=
  let v := groupVals rows p
  if v.length = 0 then none else some (v.foldl (· + ·) 0 / (v.length : ℚ))

/-- Boolean lexicographic code-point comparison of character lists: the
order Python's `sorted` uses on strings. -/
def lexLE : List Char → List Char → Bool
  | [], _ => true
  | _ :: _, [] => false
  | a :: as, b :: bs => if a < b then true else if b < a then false else lexLE as bs

/-- Code-point comparison of strings, as `sorted` compares them. -/
def strLE (a b : String) : Bool := lexLE a.toList b.toList

/-- Propositional form of `strLE`, the sort order of the option list. -/
abbrev StrLE (a b : String) : Prop := strLE a b = true

/-- Distinct non-missing PRODUCT keys of the groupby, in sorted order. -/
def productKeys (rows : List Row) : List String :=
  List.insertionSort StrLE (rows.filterMap Row.product).dedup

/-- Order used by `sort_values()` on the mean series: ascending by value
with missing means (NaN) placed last. -/
def meanLE : (String × Option ℚ) → (String × Option ℚ) → Bool
  | (_, some x), (_, some y) => decide (x ≤ y)
  | (_, some _), (_, none) => true
  | (_, none), (_, some _) => false
  | (_, none), (_, none) => true

/-- The `product_sent` series: mean sentiment per product, sorted
ascending by mean. -/
def product_sent (rows : List Row) : List (String × Option ℚ) :=
  List.insertionSort (fun a b => meanLE a b = true)
    ((productKeys rows).map fun p => (p, groupMean rows p))

/-- The "Average Sentiment by Product" block: requires both columns,
charts the per-product means when at least one group exists, emits the
"nothing to aggregate" notice when the grouping is empty, and the
missing-columns notice otherwise. Total by construction: no branch
raises. -/
def avgSentimentBlock (t : Table) : BlockOut (List (String × Option ℚ)) :=
  if "PRODUCT" ∈ t.cols ∧ "SENTIMENT_SCORE" ∈ t.cols then
    let ps := product_sent t.rows
    if ps.length ≠ 0 then .chart ps
    else .info "No sentiment scores to aggregate."
  else .info "Need columns PRODUCT and SENTIMENT_SCORE for this chart."

/-- Option list of the product selector:
`["All Products"] + sorted(df["PRODUCT"].dropna().unique().tolist())`. -/
def productOptions (rows : List Row) : List String :=
  "All Products" :: List.insertionSort StrLE (rows.filterMap Row.product).dedup

/-- The product filter: with the PRODUCT column present, a selection other
than "All Products" keeps exactly the rows whose PRODUCT equals it; the
sentinel — or a missing PRODUCT column — keeps every row. -/
def filteredRows (t : Table) (sel : String) : List Row :=
  if "PRODUCT" ∈ t.cols then
    if sel ≠ "All Products" then t.rows.filter (matchesProduct sel) else t.rows
  else t.rows

/-- Numeric sample of the histogram:
`pd.to_numeric(filtered["SENTIMENT_SCORE"], errors="coerce").dropna()`. -/
def histSample (rows : List Row) : List ℚ :=
  rows.filterMap fun r => toNumeric r.sentiment

/-- Bin edges of `pd.cut(s, bins)`: `bins + 1` evenly spaced edges over
[min, max]; a degenerate range is widened by 0.1% on both sides before
spacing, otherwise the lowest edge is lowered by 0.1% of the range so the
minimum falls inside the first right-closed interval. -/
def cutEdges (bins : Nat) (mn mx : ℚ) : List ℚ :=
  if mn = mx then
    let d : ℚ := if mn = 0 then 1 / 1000 else |mn| / 1000
    (List.range (bins + 1)).map fun i => (mn - d) + (2 * d) * i / (bins : ℚ)
  else
    let adj := (mx - mn) / 1000
    (List.range (bins + 1)).map fun i =>
      if i = 0 then mn - adj else mn + (mx - mn) * i / (bins : ℚ)

/-- Per-bin counts of `pd.cut(...).value_counts().sort_index()`: a value x
falls in bin i when `edge (i-1) < x ≤ edge i`; every bin reports a count,
zero included, in ascending bin order. -/
def cutCounts (bins : Nat) (s : List ℚ) : List Nat :=
  match s with
  | [] => []
  | x :: xs =>
    let mn := xs.foldl min x
    let mx := xs.foldl max x
    let e := cutEdges bins mn mx
    (List.range bins).map fun i =>
      (s.filter fun v => decide (e.getD i 0 < v) && decide (v ≤ e.getD (i + 1) 0)).length

/-- The "Sentiment Score Distribution" block: on the filtered rows, coerce
the scores and drop missing; with a nonempty sample, chart `pd.cut`
counts over `histBins` bins; otherwise emit a notice. -/
def histogramBlock (t : Table) (sel : String) : BlockOut (List Nat) :=
  if "SENTIMENT_SCORE" ∈ t.cols then
    let s := histSample (filteredRows t sel)
    if s.length ≠ 0 then .chart (cutCounts (histBins s.length) s)
    else .info "No numeric SENTIMENT_SCORE values to plot."
  else .info "SENTIMENT_SCORE column not found."

/-- Example table with both columns but every PRODUCT value missing: the
groupby yields zero groups. -/
def tableNoGroups : Table :=
  ⟨["PRODUCT", "SENTIMENT_SCORE"], [⟨none, Cell.num 1⟩]⟩

/-- Example table missing both dashboard columns. -/
def tableNoCols : Table :=
  ⟨["REVIEW_DATE"], [⟨some "A", Cell.num 1⟩]⟩

/-- Example table with two products, a numeric-text score and a bad
score. -/
def tableSmall : Table :=
  ⟨["PRODUCT", "SENTIMENT_SCORE"],
   [⟨some "B", Cell.num 2⟩, ⟨some "A", Cell.str "0.5"⟩, ⟨none, Cell.str "bad"⟩]⟩

/-- Example table in which "All Products" is itself a stored PRODUCT
value, colliding with the selector sentinel. -/
def tableCollide : Table :=
  ⟨["PRODUCT"], [⟨some "All Products", Cell.null⟩, ⟨some "X", Cell.null⟩]⟩

theorem lexLE_total : ∀ as bs : List Char, lexLE as bs = true ∨ lexLE bs as = true
  | [], _ => .inl rfl
  | _ :: _, [] => .inr rfl
  | a :: as, b :: bs => by
    rcases lt_trichotomy a b with h | h | h
    · left; simp [lexLE, h]
    · subst h
      rcases lexLE_total as bs with ih | ih
      · left; simp [lexLE, lt_irrefl, ih]
      · right; simp [lexLE, lt_irrefl, ih]
    · right; simp [lexLE, h]

theorem lexLE_trans : ∀ as bs cs : List Char,
    lexLE as bs = true → lexLE bs cs = true → lexLE as cs = true
  | [], _, _ => fun _ _ => rfl
  | _ :: _, [], _ => fun h1 _ => by simp [lexLE] at h1
  | _ :: _, _ :: _, [] => fun _ h2 => by simp [lexLE] at h2
  | a :: as, b :: bs, c :: cs => by
    intro h1 h2
    by_cases hab : a < b
    · by_cases hbc : b < c
      · simp [lexLE, lt_trans hab hbc]
      · by_cases hcb : c < b
        · simp [lexLE, hbc, hcb] at h2
        · have hbc' : b = c := le_antisymm (not_lt.mp hcb) (not_lt.mp hbc)
          subst hbc'
          simp [lexLE, hab]
    · by_cases hba : b < a
      · simp [lexLE, hab, hba] at h1
      · have hab' : a = b := le_antisymm (not_lt.mp hba) (not_lt.mp hab)
        subst hab'
        simp [lexLE, lt_irrefl] at h1
        by_cases hac : a < c
        · simp [lexLE, hac]
        · by_cases hca : c < a
          · simp [lexLE, hac, hca] at h2
          · have hac' : a = c := le_antisymm (not_lt.mp hca) (not_lt.mp hac)
            subst hac'
            simp [lexLE, lt_irrefl] at h2 ⊢
            exact lexLE_trans as bs cs h1 h2

instance : IsTotal String StrLE :=
  ⟨fun a b => lexLE_total a.toList b.toList⟩

instance : IsTrans String StrLE :=
  ⟨fun a b c => lexLE_trans a.toList b.toList c.toList⟩

theorem escQuotes_eq_spec (cs : List Char) : escQuotes cs = escQuotesSpec cs := by
  induction cs with
  | nil => rfl
  | cons c cs ih =>
    by_cases h : c = '\'' <;> simp [escQuotes, escQuotesSpec, h, ih]

theorem escQuotes_count (cs : List Char) :
    (escQuotes cs).count '\'' = 2 * cs.count '\'' := by
  induction cs with
  | nil => rfl
  | cons c cs ih =>
    by_cases h : c = '\'' <;> simp [escQuotes, h, List.count_cons, ih]
    omega

theorem escQuotes_filter (cs : List Char) :
    (escQuotes cs).filter (fun c => c != '\'') = cs.filter (fun c => c != '\'') := by
  induction cs with
  | nil => rfl
  | cons c cs ih =>
    by_cases h : c = '\'' <;> simp [escQuotes, h, ih]

/-- Claim C3: the escaping step of the completion bridge doubles every
single quote of the prompt and leaves every other character unchanged: it
equals the per-character replacement of each quote by two quotes, the
quote count doubles, and the non-quote characters are exactly those of
the input in order. -/
theorem escape_doubles_quotes_only (s : String) :
    safe s = String.mk (escQuotesSpec s.toList) ∧
    (safe s).toList.count '\'' = 2 * s.toList.count '\'' ∧
    (safe s).toList.filter (fun c => c != '\'')
      = s.toList.filter (fun c => c != '\'') := by
  refine ⟨?_, ?_, ?_⟩
  · simp [safe, escQuotes_eq_spec]
  · exact escQuotes_count s.toList
  · exact escQuotes_filter s.toList

/-- Claim C4: a failing completion call appends the user turn and exactly
one assistant turn whose text embeds the error detail in the apology
string, and the handler is a total function: the failure stops at the
chat-turn boundary. -/
theorem chatTurn_error_appends_apology (msgs : List ChatMsg) (q e : String) :
    chatTurn msgs q (.error e)
      = msgs ++ [("user", q), ("assistant", "Sorry, Cortex call failed: " ++ e)] ∧
    ((chatTurn msgs q (.error e)).map Prod.fst).count "assistant"
      = ((msgs.map Prod.fst).count "assistant") + 1 ∧
    ∃ pre post : List Char,
      ("Sorry, Cortex call failed: " ++ e).toList = pre ++ e.toList ++ post := by
  refine ⟨by simp [chatTurn], ?_, ⟨"Sorry, Cortex call failed: ".toList, [], ?_⟩⟩
  · have h1 : (["user", "assistant"] : List String).count "assistant" = 1 := rfl
    simp [chatTurn, List.count_append, h1]
  · show (("Sorry, Cortex call failed: " : String) ++ e).data
      = ("Sorry, Cortex call failed: " : String).data ++ e.data ++ []
    rw [List.append_nil]
    exact String.data_append _ e

/-- Claim C9: conversation state is append-only and order-preserving:
every chat turn extends the stored list by a suffix, and the concrete run
of turns user "a", assistant "b", user "c" stores exactly those turns in
that order. -/
theorem chat_msgs_append_only :
    (∀ (msgs : List ChatMsg) (q : String) (res : CompletionResult),
      ∃ tail, chatTurn msgs q res = msgs ++ tail) ∧
    ∀ res : CompletionResult,
      (chatTurn (chatTurn [] "a" (.ok "b")) "c" res).take 3
        = [("user", "a"), ("assistant", "b"), ("user", "c")] := by
  constructor
  · intro msgs q res
    refine ⟨[("user", q),
      ("assistant",
        match res with
        | .ok r => r
        | .error e => "Sorry, Cortex call failed: " ++ e)], ?_⟩
    simp [chatTurn]
  · intro res
    rfl

/-- Claim C10: only the prompt argument is quote-escaped in the
constructed Cortex SQL: the model name is embedded verbatim between the
fixed fragments, and for the model "m'x" the single quote appears
un-doubled in the result, where escaping would have produced "m''x". -/
theorem cortex_sql_model_verbatim :
    (∀ model prompt : String,
      cortex_complete_sql model prompt
        = sqlHead ++ model ++ sqlMid ++ safe prompt ++ sqlTail) ∧
    safe "m'x" = "m''x" ∧
    cortex_complete_sql "m'x" "p"
      = "SELECT SNOWFLAKE.CORTEX.COMPLETE('m'x', 'p') AS RESP" := by
  exact ⟨fun _ _ => rfl, rfl, rfl⟩

/-- Claim C1 fails as stated: at sample count 31 the code's bin count is 5
— the truncated square root of 31 — while round(sqrt 31) clamped to
[5, 40] is 6. -/
theorem histBins_not_round_at_31 :
    histBins 31 = 5 ∧ histBinsSpec 31 = 6 ∧ histBins 31 ≠ histBinsSpec 31 := by
  have hs : Nat.sqrt 31 = 5 := (Nat.eq_sqrt.mpr (by norm_num)).symm
  have e1 : histBins 31 = 5 := by simp [histBins, hs]
  have e2 : histBinsSpec 31 = 6 := by norm_num [histBinsSpec, roundSqrt, hs]
  exact ⟨e1, e2, by rw [e1, e2]; omega⟩

/-- Claim C1 (amended): for every sample count n ≥ 1 the histogram bin
count is the truncated square root of n clamped to [5, 40]; hence
5 ≤ bins ≤ 40 always holds, and at each n in {1, 24, 25, 26, 1600, 1601,
10000} it coincides with round(sqrt n) clamped to that range. -/
theorem histBins_truncated_clamped (n : Nat) (h : 1 ≤ n) :
    histBins n = max 5 (min 40 (Nat.sqrt n)) ∧
    5 ≤ histBins n ∧ histBins n ≤ 40 ∧
    (n ∈ [1, 24, 25, 26, 1600, 1601, 10000] → histBins n = histBinsSpec n) := by
  refine ⟨rfl, le_max_left _ _, max_le (by norm_num) (min_le_left _ _), ?_⟩
  intro hn
  have s1 : Nat.sqrt 1 = 1 := (Nat.eq_sqrt.mpr (by norm_num)).symm
  have s24 : Nat.sqrt 24 = 4 := (Nat.eq_sqrt.mpr (by norm_num)).symm
  have s25 : Nat.sqrt 25 = 5 := (Nat.eq_sqrt.mpr (by norm_num)).symm
  have s26 : Nat.sqrt 26 = 5 := (Nat.eq_sqrt.mpr (by norm_num)).symm
  have s1600 : Nat.sqrt 1600 = 40 := (Nat.eq_sqrt.mpr (by norm_num)).symm
  have s1601 : Nat.sqrt 1601 = 40 := (Nat.eq_sqrt.mpr (by norm_num)).symm
  have s10000 : Nat.sqrt 10000 = 100 := (Nat.eq_sqrt.mpr (by norm_num)).symm
  fin_cases hn <;>
    norm_num [histBins, histBinsSpec, roundSqrt, s1, s24, s25, s26, s1600, s1601, s10000]

/-- Concrete check of the amended bin-count property at n = 1601. -/
theorem histBins_truncated_clamped_at_1601 :
    1 ≤ 1601 ∧ 5 ≤ histBins 1601 ∧ histBins 1601 ≤ 40 ∧
    histBins 1601 = histBinsSpec 1601 :=
  ⟨by decide, (histBins_truncated_clamped 1601 (by decide)).2.1,
   (histBins_truncated_clamped 1601 (by decide)).2.2.1,
   (histBins_truncated_clamped 1601 (by decide)).2.2.2 (by decide)⟩

/-- Claim C2: with both columns present and the grouping producing zero
groups, the mean-by-category block emits exactly the "No sentiment scores
to aggregate." notice and renders no chart. -/
theorem avgSentiment_zero_groups (t : Table)
    (hc : "PRODUCT" ∈ t.cols ∧ "SENTIMENT_SCORE" ∈ t.cols)
    (hz : product_sent t.rows = []) :
    avgSentimentBlock t = .info "No sentiment scores to aggregate." := by
  simp [avgSentimentBlock, hc.1, hc.2, hz]

/-- Concrete check of the zero-groups notice on a table whose PRODUCT
values are all missing. -/
theorem avgSentiment_zero_groups_at_tableNoGroups :
    ("PRODUCT" ∈ tableNoGroups.cols ∧ "SENTIMENT_SCORE" ∈ tableNoGroups.cols) ∧
    product_sent tableNoGroups.rows = [] ∧
    avgSentimentBlock tableNoGroups = .info "No sentiment scores to aggregate." :=
  ⟨by decide, rfl, avgSentiment_zero_groups tableNoGroups (by decide) rfl⟩

/-- Claim C5: with PRODUCT or SENTIMENT_SCORE absent from the columns, the
mean-by-category block emits the informational missing-columns notice and
no chart; the block is a total function, so it never raises. -/
theorem avgSentiment_missing_cols (t : Table)
    (h : "PRODUCT" ∉ t.cols ∨ "SENTIMENT_SCORE" ∉ t.cols) :
    avgSentimentBlock t
      = .info "Need columns PRODUCT and SENTIMENT_SCORE for this chart." := by
  have hn : ¬("PRODUCT" ∈ t.cols ∧ "SENTIMENT_SCORE" ∈ t.cols) := by tauto
  simp [avgSentimentBlock, hn]

/-- Concrete check of the missing-columns notice. -/
theorem avgSentiment_missing_cols_at_tableNoCols :
    ("PRODUCT" ∉ tableNoCols.cols ∨ "SENTIMENT_SCORE" ∉ tableNoCols.cols) ∧
    avgSentimentBlock tableNoCols
      = .info "Need columns PRODUCT and SENTIMENT_SCORE for this chart." :=
  ⟨by decide, avgSentiment_missing_cols tableNoCols (by decide)⟩

/-- Claim C6: with the PRODUCT column present, selecting the
"All Products" sentinel leaves the table unfiltered, row for row. -/
theorem filteredRows_sentinel_id (t : Table) (h : "PRODUCT" ∈ t.cols) :
    filteredRows t "All Products" = t.rows := by
  simp [filteredRows, h]

/-- Concrete check of the sentinel identity filter. -/
theorem filteredRows_sentinel_id_at_tableSmall :
    "PRODUCT" ∈ tableSmall.cols ∧
    filteredRows tableSmall "All Products" = tableSmall.rows :=
  ⟨by decide, filteredRows_sentinel_id tableSmall (by decide)⟩

/-- Claim C7 fails as stated on a table that stores "All Products" as an
actual PRODUCT value: that value appears in the selectable option list as
a distinct category value, yet selecting it keeps both rows instead of
exactly the single matching row. -/
theorem filter_sentinel_collision :
    productOptions tableCollide.rows = ["All Products", "All Products", "X"] ∧
    filteredRows tableCollide "All Products"
      ≠ tableCollide.rows.filter (matchesProduct "All Products") := by
  exact ⟨by decide, by decide⟩

/-- Claim C7 (amended): for every selection distinct from the
"All Products" sentinel, the filtered view is exactly the rows whose
PRODUCT equals the selection under case-sensitive equality — and no
others — and the option list is the sentinel followed by a sorted
duplicate-free enumeration of exactly the distinct non-missing PRODUCT
values. -/
theorem filteredRows_specific (t : Table) (v : String)
    (hc : "PRODUCT" ∈ t.cols) (hv : v ≠ "All Products") :
    filteredRows t v = t.rows.filter (matchesProduct v) ∧
    (∀ r ∈ filteredRows t v, r.product = some v) ∧
    (∀ r ∈ t.rows, r.product = some v → r ∈ filteredRows t v) ∧
    (productOptions t.rows).head? = some "All Products" ∧
    List.Sorted StrLE ((productOptions t.rows).tail) ∧
    ((productOptions t.rows).tail).Nodup ∧
    (∀ p : String, p ∈ (productOptions t.rows).tail ↔ ∃ r ∈ t.rows, r.product = some p) := by
  have h1 : filteredRows t v = t.rows.filter (matchesProduct v) := by
    simp [filteredRows, hc, hv]
  refine ⟨h1, ?_, ?_, rfl, ?_, ?_, ?_⟩
  · intro r hr
    rw [h1] at hr
    have := (List.mem_filter.mp hr).2
    simpa [matchesProduct] using this
  · intro r hr hp
    rw [h1]
    exact List.mem_filter.mpr ⟨hr, by simp [matchesProduct, hp]⟩
  · exact List.sorted_insertionSort _ _
  · exact ((List.perm_insertionSort _ _).nodup_iff).mpr (List.nodup_dedup _)
  · intro p
    simp [productOptions, List.mem_insertionSort, List.mem_dedup, List.mem_filterMap]

/-- Concrete check of the specific-category filter and option list on a
small table. -/
theorem filteredRows_specific_at_tableSmall :
    "PRODUCT" ∈ tableSmall.cols ∧ ("A" : String) ≠ "All Products" ∧
    filteredRows tableSmall "A" = tableSmall.rows.filter (matchesProduct "A") ∧
    (productOptions tableSmall.rows).head? = some "All Products" ∧
    List.Sorted StrLE ((productOptions tableSmall.rows).tail) ∧
    ((productOptions tableSmall.rows).tail).Nodup :=
  ⟨by decide, by decide,
   (filteredRows_specific tableSmall "A" (by decide) (by decide)).1,
   (filteredRows_specific tableSmall "A" (by decide) (by decide)).2.2.2.1,
   (filteredRows_specific tableSmall "A" (by decide) (by decide)).2.2.2.2.1,
   (filteredRows_specific tableSmall "A" (by decide) (by decide)).2.2.2.2.2.1⟩

/-- Claim C8: a row whose sentiment coerces to missing is excluded from
the aggregates: appending it changes no per-product mean and leaves the
histogram sample — hence every bin count — unchanged; and a group with
valid values averages over their number, never over the row count. -/
theorem coerced_missing_excluded (rows : List Row) (r : Row)
    (hr : toNumeric r.sentiment = none) :
    (∀ p, groupMean (rows ++ [r]) p = groupMean rows p) ∧
    histSample (rows ++ [r]) = histSample rows ∧
    (∀ b, cutCounts b (histSample (rows ++ [r])) = cutCounts b (histSample rows)) ∧
    ∀ p, groupVals rows p ≠ [] →
      groupMean rows p
        = some ((groupVals rows p).foldl (· + ·) 0
            / ((groupVals rows p).length : ℚ)) := by
  have hg : ∀ p, groupVals (rows ++ [r]) p = groupVals rows p := by
    intro p
    unfold groupVals groupRows
    rw [List.filter_append, List.filterMap_append]
    cases hm : matchesProduct p r <;> simp [List.filter_cons, hm, hr]
  have hs : histSample (rows ++ [r]) = histSample rows := by
    simp [histSample, List.filterMap_append, hr]
  refine ⟨fun p => by simp [groupMean, hg p], hs, fun b => by rw [hs], fun p hne => ?_⟩
  have hl : (groupVals rows p).length ≠ 0 := by
    simpa [List.length_eq_zero] using hne
  simp [groupMean, hl]

/-- Concrete check: appending a row with the non-numeric score "bad"
changes neither the mean of group "A" nor the histogram sample, and the
mean of group "A" is its valid-value sum over the valid-value count. -/
theorem coerced_missing_excluded_at_bad :
    toNumeric (Cell.str "bad") = none ∧
    groupMean (tableSmall.rows ++ [Row.mk (some "A") (Cell.str "bad")]) "A"
      = groupMean tableSmall.rows "A" ∧
    histSample (tableSmall.rows ++ [Row.mk (some "A") (Cell.str "bad")])
      = histSample tableSmall.rows ∧
    groupMean tableSmall.rows "A"
      = some ((groupVals tableSmall.rows "A").foldl (· + ·) 0
          / ((groupVals tableSmall.rows "A").length : ℚ)) :=
  ⟨rfl,
   (coerced_missing_excluded tableSmall.rows (Row.mk (some "A") (Cell.str "bad")) rfl).1 "A",
   (coerced_missing_excluded tableSmall.rows (Row.mk (some "A") (Cell.str "bad")) rfl).2.1,
   (coerced_missing_excluded tableSmall.rows (Row.mk (some "A") (Cell.str "bad")) rfl).2.2.2
     "A" (by decide)⟩

end StreamlitApp
